import Mathlib

/-!
Verification of the WiseGuard TCP challenge-response admission gate.

Each Go component the claims depend on is shallowly embedded as an
executable Lean definition:

* `Protocol` — wire framing (`pkg/protocol/message.go`);
* `Pow`      — PoW challenge store and verification (`pkg/pow/service.go`),
  with an executable SHA-256 over byte lists;
* `Ratelimit` — per-IP request-rate bucket and per-IP connection counter
  (`pkg/server/ratelimit`);
* `Protection` — flood token bucket and failed-attempt tracker
  (`pkg/server/protection`);
* `WGServer` — difficulty-adjustment tick and the per-connection handler
  (`pkg/server/server.go`), with socket I/O outcomes supplied as oracles.

Go maps are modelled as functions `String → Option β`; time is modelled in
seconds as a rational number; Go machine integers are modelled as `Nat`/`Int`
with explicit wrapping where the code can overflow.
-/

/-- A Go `map[string]V`, modelled extensionally. -/
def GoMap (β : Type) : Type := String → Option β

/-- The empty map. -/
def GoMap.empty {β : Type} : GoMap β := fun _ => none

/-- `m[k] = v` map update. -/
def GoMap.insert {β : Type} (m : GoMap β) (k : String) (v : β) : GoMap β :=
  fun q => if q = k then some v else m q

/-- `delete(m, k)`. -/
def GoMap.erase {β : Type} (m : GoMap β) (k : String) : GoMap β :=
  fun q => if q = k then none else m q

namespace Protocol

/-- Go constant `Version = 1` (`pkg/protocol/types.go`). -/
def Version : Nat := 1

/-- Go constant `MaxMessageSize = 64 * 1024`. -/
def MaxMessageSize : Nat := 64 * 1024

/-- Go constant `HeaderSize = 8`. -/
def HeaderSize : Nat := 8

/-- The `error` values `Marshal`/`Unmarshal` can return. -/
inductive ProtoError where
  | invalidVersion
  | messageTooLarge
  | invalidPayload
  deriving DecidableEq, Repr

/-- Go struct `Message`.  `MType` models the Go field `Type` (a `uint8`);
bytes are `Nat` values below 256, and the `uint16`/`uint32` fields carry
the corresponding range side conditions in the theorems. -/
structure Message where
  Version : Nat
  MType : Nat
  Flags : Nat
  Length : Nat
  Payload : List Nat
  deriving DecidableEq, Repr

/-- `(*Message).Marshal` from `pkg/protocol/message.go`: validates the
version, rejects oversize payloads, then emits the 8-byte big-endian
header followed by the payload.  `byte(m.Type)` is the `% 256` cast; the
length field is `uint32(len(m.Payload))` (the `Length` field is ignored). -/
def Message.Marshal (m : Message) : Except ProtoError (List Nat) :=
  if m.Version ≠ Protocol.Version then
    Except.error ProtoError.invalidVersion
  else if m.Payload.length > MaxMessageSize - HeaderSize then
    Except.error ProtoError.messageTooLarge
  else
    Except.ok (m.Version :: m.MType % 256 ::
      m.Flags / 256 % 256 :: m.Flags % 256 ::
      m.Payload.length / 16777216 % 256 :: m.Payload.length / 65536 % 256 ::
      m.Payload.length / 256 % 256 :: m.Payload.length % 256 ::
      m.Payload)

/-- `Unmarshal` from `pkg/protocol/message.go`: fewer than `HeaderSize`
bytes is `ErrInvalidPayload`; then the header fields are parsed big-endian,
a wrong version or an oversize length is rejected, and the payload is
copied only when the buffer holds `HeaderSize + Length` bytes (otherwise
the payload is left empty, mirroring the `nil` slice). -/
def Unmarshal (data : List Nat) : Except ProtoError Message :=
  match data with
  | b0 :: b1 :: b2 :: b3 :: b4 :: b5 :: b6 :: b7 :: rest =>
    let ver := b0
    let ty := b1
    let flags := b2 * 256 + b3
    let len := b4 * 16777216 + b5 * 65536 + b6 * 256 + b7
    if ver ≠ Protocol.Version then
      Except.error ProtoError.invalidVersion
    else if len > MaxMessageSize - HeaderSize then
      Except.error ProtoError.messageTooLarge
    else if 0 < len ∧ HeaderSize + len ≤ HeaderSize + rest.length then
      Except.ok ⟨ver, ty, flags, len, rest.take len⟩
    else
      Except.ok ⟨ver, ty, flags, len, []⟩
  | _ => Except.error ProtoError.invalidPayload

end Protocol

/-- Claim C5: a message with version 1, `Length` equal to its payload size
and payload of at most 65,528 bytes round-trips through
`Unmarshal ∘ Marshal`; a 65,529-byte payload length is rejected with an
error by both `Marshal` and `Unmarshal`; and a version-2 header is
rejected by both. -/
theorem C5_marshal_roundtrip_and_bounds :
    (∀ m : Protocol.Message, m.Version = 1 → m.MType < 256 → m.Flags < 65536 →
      m.Length = m.Payload.length → m.Payload.length ≤ 65528 →
      (m.Marshal).bind Protocol.Unmarshal = Except.ok m) ∧
    (∀ m : Protocol.Message, m.Version = 1 → m.Payload.length = 65529 →
      m.Marshal = Except.error Protocol.ProtoError.messageTooLarge) ∧
    (Protocol.Unmarshal (1 :: 2 :: 0 :: 0 :: 0 :: 0 :: 255 :: 249 :: []) =
      Except.error Protocol.ProtoError.messageTooLarge) ∧
    (∀ m : Protocol.Message, m.Version = 2 →
      m.Marshal = Except.error Protocol.ProtoError.invalidVersion) ∧
    (Protocol.Unmarshal (2 :: 1 :: 0 :: 0 :: 0 :: 0 :: 0 :: 0 :: []) =
      Except.error Protocol.ProtoError.invalidVersion) := by
  refine ⟨?_, ?_, ?_, ?_, ?_⟩
  · intro m hv ht hf hl hle
    obtain ⟨ver, ty, flags, len, payload⟩ := m
    simp only at hv ht hf hl hle
    subst hv hl
    have hlen : payload.length ≤ 65528 := hle
    simp only [Protocol.Message.Marshal, Protocol.MaxMessageSize, Protocol.HeaderSize]
    rw [if_neg (by simp [Protocol.Version]), if_neg (by omega)]
    simp only [Except.bind, Protocol.Unmarshal, Protocol.MaxMessageSize, Protocol.HeaderSize]
    rw [if_neg (by simp [Protocol.Version]), if_neg (by omega)]
    by_cases hp : payload.length = 0
    · rw [if_neg (by omega)]
      simp [Protocol.Version, List.eq_nil_of_length_eq_zero hp, Nat.mod_eq_of_lt ht, hp]
      omega
    · rw [if_pos (by constructor <;> omega)]
      simp [Protocol.Version, List.take_length, Nat.mod_eq_of_lt ht]
      omega
  · intro m hv hlen
    simp only [Protocol.Message.Marshal, Protocol.MaxMessageSize, Protocol.HeaderSize,
      Protocol.Version, hv, hlen]
    norm_num
  · simp [Protocol.Unmarshal, Protocol.MaxMessageSize, Protocol.HeaderSize, Protocol.Version]
  · intro m hv
    simp [Protocol.Message.Marshal, hv, Protocol.Version]
  · simp [Protocol.Unmarshal, Protocol.Version]

/-- Witness for claim C5: the concrete message `⟨1, 2, 7, 3, [10, 20, 30]⟩`
satisfies every hypothesis and round-trips, a concrete 65,529-byte payload
is rejected by `Marshal`, and a concrete version-2 message is rejected. -/
theorem C5_marshal_roundtrip_witness :
    ((Protocol.Message.Marshal ⟨1, 2, 7, 3, [10, 20, 30]⟩).bind Protocol.Unmarshal =
      Except.ok ⟨1, 2, 7, 3, [10, 20, 30]⟩) ∧
    (Protocol.Message.Marshal ⟨1, 2, 0, 65529, List.replicate 65529 0⟩ =
      Except.error Protocol.ProtoError.messageTooLarge) ∧
    (Protocol.Message.Marshal ⟨2, 2, 0, 0, []⟩ =
      Except.error Protocol.ProtoError.invalidVersion) :=
  ⟨C5_marshal_roundtrip_and_bounds.1 ⟨1, 2, 7, 3, [10, 20, 30]⟩ rfl (by decide) (by decide)
      (by decide) (by decide),
    C5_marshal_roundtrip_and_bounds.2.1 ⟨1, 2, 0, 65529, List.replicate 65529 0⟩ rfl
      (by rw [List.length_replicate]),
    C5_marshal_roundtrip_and_bounds.2.2.2.1 ⟨2, 2, 0, 0, []⟩ rfl⟩

namespace Pow

/-- Wrap to a 32-bit word, modelling `uint32` arithmetic. -/
def w32 (n : Nat) : Nat := n % 4294967296

/-- 32-bit rotate right. -/
def rotr (x n : Nat) : Nat :=
  w32 (Nat.lor (Nat.shiftRight x n) (Nat.shiftLeft x (32 - n)))

/-- SHA-256 choice function; xor with `4294967295` is the 32-bit
complement. -/
def shaCh (e f g : Nat) : Nat :=
  Nat.xor (Nat.land e f) (Nat.land (Nat.xor e 4294967295) g)

/-- SHA-256 majority function. -/
def shaMaj (a b c : Nat) : Nat :=
  Nat.xor (Nat.xor (Nat.land a b) (Nat.land a c)) (Nat.land b c)

/-- SHA-256 big sigma-0. -/
def bigSigma0 (a : Nat) : Nat := Nat.xor (Nat.xor (rotr a 2) (rotr a 13)) (rotr a 22)

/-- SHA-256 big sigma-1. -/
def bigSigma1 (e : Nat) : Nat := Nat.xor (Nat.xor (rotr e 6) (rotr e 11)) (rotr e 25)

/-- SHA-256 small sigma-0. -/
def smallSigma0 (w : Nat) : Nat :=
  Nat.xor (Nat.xor (rotr w 7) (rotr w 18)) (Nat.shiftRight w 3)

/-- SHA-256 small sigma-1. -/
def smallSigma1 (w : Nat) : Nat :=
  Nat.xor (Nat.xor (rotr w 17) (rotr w 19)) (Nat.shiftRight w 10)

/-- The 64 SHA-256 round constants. -/
def shaK : List Nat :=
  [1116352408, 1899447441, 3049323471, 3921009573,
   961987163, 1508970993, 2453635748, 2870763221,
   3624381080, 310598401, 607225278, 1426881987,
   1925078388, 2162078206, 2614888103, 3248222580,
   3835390401, 4022224774, 264347078, 604807628,
   770255983, 1249150122, 1555081692, 1996064986,
   2554220882, 2821834349, 2952996808, 3210313671,
   3336571891, 3584528711, 113926993, 338241895,
   666307205, 773529912, 1294757372, 1396182291,
   1695183700, 1986661051, 2177026350, 2456956037,
   2730485921, 2820302411, 3259730800, 3345764771,
   3516065817, 3600352804, 4094571909, 275423344,
   430227734, 506948616, 659060556, 883997877,
   958139571, 1322822218, 1537002063, 1747873779,
   1955562222, 2024104815, 2227730452, 2361852424,
   2428436474, 2756734187, 3204031479, 3329325298]

/-- The eight 32-bit words of SHA-256 working state. -/
structure SHAState where
  a : Nat
  b : Nat
  c : Nat
  d : Nat
  e : Nat
  f : Nat
  g : Nat
  h : Nat

/-- SHA-256 initial hash value. -/
def initState : SHAState :=
  ⟨1779033703, 3144134277, 1013904242, 2773480762,
   1359893119, 2600822924, 528734635, 1541459225⟩

/-- Big-endian byte serialisation of `n` into `k` bytes. -/
def natToBytesBE (k n : Nat) : List Nat :=
  (List.range k).map (fun i => n / 2 ^ (8 * (k - 1 - i)) % 256)

/-- SHA-256 padding: `0x80`, zeros to 56 mod 64, then the 64-bit bit length. -/
def padMessage (msg : List Nat) : List Nat :=
  msg ++ 128 :: (List.replicate ((119 - msg.length % 64) % 64) 0 ++ natToBytesBE 8 (8 * msg.length))

/-- A 64-byte chunk as 16 big-endian 32-bit words. -/
def wordsOfChunk (chunk : List Nat) : List Nat :=
  (List.range 16).map (fun i =>
    chunk.getD (4 * i) 0 * 16777216 + chunk.getD (4 * i + 1) 0 * 65536 +
    chunk.getD (4 * i + 2) 0 * 256 + chunk.getD (4 * i + 3) 0)

/-- Extend the 16-word schedule by `n` further words. -/
def extendSchedule : Nat → List Nat → List Nat
  | 0, ws => ws
  | n + 1, ws =>
    extendSchedule n (ws ++ [w32 (ws.getD (ws.length - 16) 0 +
      smallSigma0 (ws.getD (ws.length - 15) 0) +
      ws.getD (ws.length - 7) 0 + smallSigma1 (ws.getD (ws.length - 2) 0))])

/-- One SHA-256 compression round. -/
def compressStep (s : SHAState) (k w : Nat) : SHAState :=
  let t1 := w32 (s.h + bigSigma1 s.e + shaCh s.e s.f s.g + k + w)
  let t2 := w32 (bigSigma0 s.a + shaMaj s.a s.b s.c)
  ⟨w32 (t1 + t2), s.a, s.b, s.c, w32 (s.d + t1), s.e, s.f, s.g⟩

/-- Process one 64-byte chunk. -/
def processChunk (st : SHAState) (chunk : List Nat) : SHAState :=
  let ws := extendSchedule 48 (wordsOfChunk chunk)
  let fin := (List.range 64).foldl (fun s i => compressStep s (shaK.getD i 0) (ws.getD i 0)) st
  ⟨w32 (st.a + fin.a), w32 (st.b + fin.b), w32 (st.c + fin.c), w32 (st.d + fin.d),
   w32 (st.e + fin.e), w32 (st.f + fin.f), w32 (st.g + fin.g), w32 (st.h + fin.h)⟩

/-- SHA-256 of a byte list, as the 32-byte digest (this matches the
reference test vectors for the empty string and for `abc`). -/
def sha256Bytes (msg : List Nat) : List Nat :=
  let padded := padMessage msg
  let fin := (List.range (padded.length / 64)).foldl
    (fun st i => processChunk st ((padded.drop (64 * i)).take 64)) initState
  natToBytesBE 4 fin.a ++ natToBytesBE 4 fin.b ++ natToBytesBE 4 fin.c ++ natToBytesBE 4 fin.d ++
  natToBytesBE 4 fin.e ++ natToBytesBE 4 fin.f ++ natToBytesBE 4 fin.g ++ natToBytesBE 4 fin.h

/-- The lowercase hex alphabet used by Go `encoding/hex`. -/
def hexChars : List Char := "0123456789abcdef".data

/-- One lowercase hex digit. -/
def hexDigit (n : Nat) : Char := hexChars.getD n '0'

/-- Go `hex.EncodeToString`: two lowercase hex digits per byte. -/
def hexEncodeBytes : List Nat → List Char
  | [] => []
  | b :: bs => hexDigit (b / 16) :: hexDigit (b % 16) :: hexEncodeBytes bs

/-- The UTF-8 bytes of a string, modelling Go `[]byte(s)`. -/
def strBytes (s : String) : List Nat := s.toUTF8.toList.map (fun b => b.toNat)

/-- `calculateHash` from `pkg/pow/service.go`: lowercase-hex SHA-256. -/
def calculateHash (input : String) : String :=
  String.mk (hexEncodeBytes (sha256Bytes (strBytes input)))

/-- Go `strings.Repeat`. -/
def goRepeat (s : String) (n : Nat) : String := String.join (List.replicate n s)

/-- `validateDifficulty` from `pkg/pow/service.go`: the hash must start
with `difficulty` '0' characters (`strings.HasPrefix`). -/
def validateDifficulty (hash : String) (difficulty : Nat) : Bool :=
  hash.startsWith (goRepeat "0" difficulty)

/-- Go struct `pow.Challenge`.  `Pfx` models the Go field `Prefix`. -/
structure Challenge where
  Pfx : String
  Difficulty : Nat
  Nonce : String
  ExpiresAt : ℚ
  deriving DecidableEq

/-- The state of the `pow.service`: the TTL and the `challenges` map. -/
structure PowService where
  ttl : ℚ
  challenges : GoMap Challenge

/-- `NewService` from `pkg/pow/service.go`: a zero TTL defaults to five
minutes (300 s). -/
def NewService (ttl : ℚ) : PowService :=
  if ttl = 0 then ⟨300, GoMap.empty⟩ else ⟨ttl, GoMap.empty⟩

/-- `generateRandomString` from `pkg/pow/service.go`: hex-encodes
`length/2` bytes drawn from the crypto random source (modelled as the
supplied byte list). -/
def generateRandomString (length : Nat) (randBytes : List Nat) : String :=
  String.mk (hexEncodeBytes (randBytes.take (length / 2)))

/-- `CreateChallenge` from `pkg/pow/service.go`: difficulty 0 is an error
before any state changes; otherwise a challenge with 16-hex-char random
`Pfx`/`Nonce` and `ExpiresAt = now + ttl` is stored under its nonce.  The
random source is modelled by the two supplied byte lists; the deferred
TTL deletion runs concurrently and is not part of this step. -/
def CreateChallenge (s : PowService) (difficulty : Nat)
    (prefixBytes nonceBytes : List Nat) (now : ℚ) : Except String Challenge × PowService :=
  if difficulty = 0 then
    (Except.error "difficulty must be greater than 0", s)
  else
    let pfx := generateRandomString 16 prefixBytes
    let nonce := generateRandomString 16 nonceBytes
    let challenge : Challenge := ⟨pfx, difficulty, nonce, now + s.ttl⟩
    (Except.ok challenge, ⟨s.ttl, s.challenges.insert challenge.Nonce challenge⟩)

end Pow

namespace Protocol

/-- Go struct `protocol.SolutionPayload`.  `Pfx` models the Go field
`Prefix`. -/
structure SolutionPayload where
  Pfx : String
  Solution : String
  Nonce : String
  deriving DecidableEq

end Protocol

namespace Pow

/-- `VerifySolution` from `pkg/pow/service.go`: looks up the stored
challenge under `solution.Nonce` (the `challenge` argument is never
read), compares the stored prefix, rejects after expiry, and finally
checks the hash difficulty of the stored entry. -/
def VerifySolution (s : PowService) (challenge : Challenge)
    (solution : Protocol.SolutionPayload) (now : ℚ) : Bool :=
  match s.challenges solution.Nonce with
  | none => false
  | some ch =>
    if ch.Pfx ≠ solution.Pfx then false
    else if now > ch.ExpiresAt then false
    else validateDifficulty (calculateHash (solution.Pfx ++ solution.Solution)) ch.Difficulty

/-- A string all of whose characters are lowercase hex digits. -/
def isHexString (s : String) : Prop := ∀ c ∈ s.data, c ∈ hexChars

end Pow

/-- Every hex digit is drawn from the hex alphabet. -/
theorem hexDigit_mem_hexChars (n : Nat) : Pow.hexDigit n ∈ Pow.hexChars := by
  unfold Pow.hexDigit
  rcases Nat.lt_or_ge n Pow.hexChars.length with h | h
  · rw [List.getD_eq_getElem _ _ h]
    exact List.getElem_mem h
  · rw [List.getD_eq_default _ _ h]
    decide

/-- Hex encoding doubles the length. -/
theorem hexEncodeBytes_length (bs : List Nat) :
    (Pow.hexEncodeBytes bs).length = 2 * bs.length := by
  induction bs with
  | nil => rfl
  | cons b bs ih => simp [Pow.hexEncodeBytes, ih]; omega

/-- Hex encoding produces only hex characters. -/
theorem hexEncodeBytes_mem (bs : List Nat) :
    ∀ c ∈ Pow.hexEncodeBytes bs, c ∈ Pow.hexChars := by
  induction bs with
  | nil => intro c hc; cases hc
  | cons b bs ih =>
    intro c hc
    simp only [Pow.hexEncodeBytes, List.mem_cons] at hc
    rcases hc with rfl | rfl | hc
    · exact hexDigit_mem_hexChars _
    · exact hexDigit_mem_hexChars _
    · exact ih c hc

/-- Claim C3: `VerifySolution` returns true iff the map holds an entry
under `solution.Nonce` whose prefix matches, whose expiry has not passed
(`now ≤ expires_at`), and such that the lowercase-hex SHA-256 of
`prefix ++ solution` starts with `entry.Difficulty` '0' characters; in
particular any solution whose stored entry has expired is rejected. -/
theorem C3_verify_solution_iff :
    ∀ (s : Pow.PowService) (ch : Pow.Challenge) (sol : Protocol.SolutionPayload) (now : ℚ),
      (Pow.VerifySolution s ch sol now = true ↔
        ∃ e : Pow.Challenge, s.challenges sol.Nonce = some e ∧ e.Pfx = sol.Pfx ∧
          now ≤ e.ExpiresAt ∧
          Pow.validateDifficulty (Pow.calculateHash (sol.Pfx ++ sol.Solution)) e.Difficulty
            = true) ∧
      (∀ e : Pow.Challenge, s.challenges sol.Nonce = some e → e.ExpiresAt < now →
        Pow.VerifySolution s ch sol now = false) := by
  intro s ch sol now
  constructor
  · cases h : s.challenges sol.Nonce with
    | none => simp [Pow.VerifySolution, h]
    | some e =>
      simp only [Pow.VerifySolution, h, Option.some.injEq]
      constructor
      · intro hv
        split_ifs at hv with h1 h2
        exact ⟨e, rfl, not_not.mp h1, not_lt.mp h2, hv⟩
      · rintro ⟨e', rfl, hp, he, hv⟩
        rw [if_neg (not_not.mpr hp), if_neg (not_lt.mpr he)]
        exact hv
  · intro e he hexp
    simp only [Pow.VerifySolution, he]
    by_cases hp : e.Pfx ≠ sol.Pfx
    · rw [if_pos hp]
    · rw [if_neg hp, if_pos hexp]

/-- Witness for claim C3: a concretely stored challenge that has expired
(`ExpiresAt = 1 < now = 2`) makes `VerifySolution` return false. -/
theorem C3_verify_solution_witness :
    Pow.VerifySolution
      ⟨60, GoMap.insert GoMap.empty "aabb" ⟨"pp", 1, "aabb", 1⟩⟩
      ⟨"pp", 1, "aabb", 1⟩ ⟨"pp", "s", "aabb"⟩ 2 = false :=
  (C3_verify_solution_iff ⟨60, GoMap.insert GoMap.empty "aabb" ⟨"pp", 1, "aabb", 1⟩⟩
      ⟨"pp", 1, "aabb", 1⟩ ⟨"pp", "s", "aabb"⟩ 2).2
    ⟨"pp", 1, "aabb", 1⟩ (by simp [GoMap.insert, GoMap.empty]) (by norm_num)

/-- Claim C10: `VerifySolution` does not depend on its challenge
argument — only the entry stored under `solution.Nonce` is consulted, so
the result is identical for any two challenge values. -/
theorem C10_verify_ignores_challenge :
    ∀ (s : Pow.PowService) (c1 c2 : Pow.Challenge) (sol : Protocol.SolutionPayload) (now : ℚ),
      Pow.VerifySolution s c1 sol now = Pow.VerifySolution s c2 sol now :=
  fun _ _ _ _ _ => rfl

/-- Claim C4: `CreateChallenge` with difficulty 0 fails with an error and
leaves the challenge map unchanged; with any positive difficulty it
returns a challenge whose prefix and nonce are 16-hex-character strings
built from the random bytes, whose expiry is `now + ttl`, and which is
stored in the map under its nonce. -/
theorem C4_create_challenge :
    (∀ (s : Pow.PowService) (pb nb : List Nat) (now : ℚ),
      Pow.CreateChallenge s 0 pb nb now =
        (Except.error "difficulty must be greater than 0", s)) ∧
    (∀ (s : Pow.PowService) (d : Nat) (pb nb : List Nat) (now : ℚ),
      0 < d → pb.length = 8 → nb.length = 8 →
      ∃ ch : Pow.Challenge,
        Pow.CreateChallenge s d pb nb now =
          (Except.ok ch, ⟨s.ttl, s.challenges.insert ch.Nonce ch⟩) ∧
        ch.Pfx.length = 16 ∧ ch.Nonce.length = 16 ∧
        Pow.isHexString ch.Pfx ∧ Pow.isHexString ch.Nonce ∧
        ch.Difficulty = d ∧ ch.ExpiresAt = now + s.ttl) := by
  constructor
  · intro s pb nb now
    simp [Pow.CreateChallenge]
  · intro s d pb nb now hd hpb hnb
    refine ⟨⟨Pow.generateRandomString 16 pb, d, Pow.generateRandomString 16 nb, now + s.ttl⟩,
      ?_, ?_, ?_, ?_, ?_, rfl, rfl⟩
    · simp only [Pow.CreateChallenge]
      rw [if_neg (by omega)]
    · simp only [Pow.generateRandomString, String.length]
      rw [List.take_of_length_le (by omega)]
      rw [hexEncodeBytes_length, hpb]
    · simp only [Pow.generateRandomString, String.length]
      rw [List.take_of_length_le (by omega)]
      rw [hexEncodeBytes_length, hnb]
    · intro c hc
      exact hexEncodeBytes_mem _ c hc
    · intro c hc
      exact hexEncodeBytes_mem _ c hc

/-- Witness for claim C4: concrete random bytes of length 8 and
difficulty 1, plus the concrete difficulty-0 error. -/
theorem C4_create_challenge_witness :
    (Pow.CreateChallenge ⟨60, GoMap.empty⟩ 0 [0, 1, 2, 3, 4, 5, 6, 7]
        [8, 9, 10, 11, 12, 13, 14, 15] 0 =
      (Except.error "difficulty must be greater than 0", ⟨60, GoMap.empty⟩)) ∧
    (∃ ch : Pow.Challenge,
      Pow.CreateChallenge ⟨60, GoMap.empty⟩ 1 [0, 1, 2, 3, 4, 5, 6, 7]
          [8, 9, 10, 11, 12, 13, 14, 15] 0 =
        (Except.ok ch, ⟨60, GoMap.empty.insert ch.Nonce ch⟩) ∧
      ch.Pfx.length = 16 ∧ ch.Nonce.length = 16 ∧
      Pow.isHexString ch.Pfx ∧ Pow.isHexString ch.Nonce ∧
      ch.Difficulty = 1 ∧ ch.ExpiresAt = 0 + 60) :=
  ⟨C4_create_challenge.1 ⟨60, GoMap.empty⟩ [0, 1, 2, 3, 4, 5, 6, 7]
      [8, 9, 10, 11, 12, 13, 14, 15] 0,
    C4_create_challenge.2 ⟨60, GoMap.empty⟩ 1 [0, 1, 2, 3, 4, 5, 6, 7]
      [8, 9, 10, 11, 12, 13, 14, 15] 0 (by decide) (by decide) (by decide)⟩

namespace Ratelimit

/-- Go struct `connStats` (`pkg/server/ratelimit/connection_limiter.go`). -/
structure connStats where
  count : Int
  lastReset : ℚ
  deriving DecidableEq

/-- Go struct `ConnectionLimiter`: the per-IP connection counter. -/
structure ConnectionLimiter where
  maxPerIP : Int
  ttl : ℚ
  connections : GoMap connStats

/-- `ConnectionLimiter.AllowConnection`: creates the entry lazily, resets
the count when the TTL has elapsed, rejects (without writing back) when
the count is at the cap, and otherwise increments and stores. -/
def ConnectionLimiter.AllowConnection (cl : ConnectionLimiter) (ip : String) (now : ℚ) :
    Bool × ConnectionLimiter :=
  let stats :=
    match cl.connections ip with
    | some s => s
    | none => ⟨0, now⟩
  let stats := if now - stats.lastReset > cl.ttl then ⟨0, now⟩ else stats
  if stats.count ≥ cl.maxPerIP then (false, cl)
  else (true, { cl with connections := cl.connections.insert ip ⟨stats.count + 1, stats.lastReset⟩ })

/-- `ConnectionLimiter.RemoveConnection`: decrements an existing entry
and deletes it when the decremented count is `≤ 0`; an absent entry is
untouched. -/
def ConnectionLimiter.RemoveConnection (cl : ConnectionLimiter) (ip : String) :
    ConnectionLimiter :=
  match cl.connections ip with
  | none => cl
  | some stats =>
    if stats.count - 1 ≤ 0 then { cl with connections := cl.connections.erase ip }
    else { cl with connections := cl.connections.insert ip ⟨stats.count - 1, stats.lastReset⟩ }

/-- `ConnectionLimiter.cleanup`: evicts entries whose `lastReset` is older
than the TTL. -/
def ConnectionLimiter.cleanup (cl : ConnectionLimiter) (now : ℚ) : ConnectionLimiter :=
  { cl with connections := fun q =>
      match cl.connections q with
      | some stats => if now - stats.lastReset > cl.ttl then none else some stats
      | none => none }

/-- The operations that touch the connection-counter map. -/
inductive CLOp where
  | allow (ip : String) (now : ℚ)
  | remove (ip : String)
  | cleanup (now : ℚ)

/-- Run a sequence of connection-limiter operations. -/
def runCL (cl : ConnectionLimiter) : List CLOp → ConnectionLimiter
  | [] => cl
  | CLOp.allow ip now :: rest => runCL (cl.AllowConnection ip now).2 rest
  | CLOp.remove ip :: rest => runCL (cl.RemoveConnection ip) rest
  | CLOp.cleanup now :: rest => runCL (cl.cleanup now) rest

/-- Every entry present in the connection-counter map has count at least 1. -/
def CLInv (cl : ConnectionLimiter) : Prop :=
  ∀ ip s, cl.connections ip = some s → 1 ≤ s.count

end Ratelimit

/-- `AllowConnection` preserves the count-positivity invariant. -/
theorem CLInv_allow (cl : Ratelimit.ConnectionLimiter) (ip : String) (now : ℚ)
    (h : Ratelimit.CLInv cl) : Ratelimit.CLInv (cl.AllowConnection ip now).2 := by
  have hcount : ∀ s : Ratelimit.connStats, cl.connections ip = some s → 0 ≤ s.count := by
    intro s hs
    have := h ip s hs
    omega
  unfold Ratelimit.ConnectionLimiter.AllowConnection
  cases hl : cl.connections ip with
  | none =>
    simp only
    split_ifs with h1 h2 h3
    · exact h
    · intro ip2 s2 h2'
      simp only [GoMap.insert] at h2'
      split at h2'
      · cases h2'
        show (1 : Int) ≤ 0 + 1
        omega
      · exact h ip2 s2 h2'
    · exact h
    · intro ip2 s2 h2'
      simp only [GoMap.insert] at h2'
      split at h2'
      · cases h2'
        show (1 : Int) ≤ 0 + 1
        omega
      · exact h ip2 s2 h2'
  | some s =>
    simp only
    split_ifs with h1 h2 h3
    · exact h
    · intro ip2 s2 h2'
      simp only [GoMap.insert] at h2'
      split at h2'
      · cases h2'
        show (1 : Int) ≤ 0 + 1
        omega
      · exact h ip2 s2 h2'
    · exact h
    · intro ip2 s2 h2'
      simp only [GoMap.insert] at h2'
      split at h2'
      · cases h2'
        have := hcount s hl
        show (1 : Int) ≤ s.count + 1
        omega
      · exact h ip2 s2 h2'

/-- `RemoveConnection` preserves the count-positivity invariant. -/
theorem CLInv_remove (cl : Ratelimit.ConnectionLimiter) (ip : String)
    (h : Ratelimit.CLInv cl) : Ratelimit.CLInv (cl.RemoveConnection ip) := by
  unfold Ratelimit.ConnectionLimiter.RemoveConnection
  cases hl : cl.connections ip with
  | none => exact h
  | some s =>
    simp only
    split_ifs with h1
    · intro ip2 s2 h2'
      simp only [GoMap.erase] at h2'
      split at h2'
      · cases h2'
      · exact h ip2 s2 h2'
    · intro ip2 s2 h2'
      simp only [GoMap.insert] at h2'
      split at h2'
      · cases h2'
        show (1 : Int) ≤ s.count - 1
        omega
      · exact h ip2 s2 h2'

/-- `cleanup` preserves the count-positivity invariant. -/
theorem CLInv_cleanup (cl : Ratelimit.ConnectionLimiter) (now : ℚ)
    (h : Ratelimit.CLInv cl) : Ratelimit.CLInv (cl.cleanup now) := by
  intro ip s hs
  simp only [Ratelimit.ConnectionLimiter.cleanup] at hs
  split at hs
  · rename_i stats heq
    split_ifs at hs
    cases hs
    exact h ip _ heq
  · cases hs

/-- Any operation sequence preserves the count-positivity invariant. -/
theorem CLInv_run (ops : List Ratelimit.CLOp) :
    ∀ cl : Ratelimit.ConnectionLimiter, Ratelimit.CLInv cl →
      Ratelimit.CLInv (Ratelimit.runCL cl ops) := by
  induction ops with
  | nil => intro cl h; exact h
  | cons op rest ih =>
    intro cl h
    cases op with
    | allow ip now => exact ih _ (CLInv_allow cl ip now h)
    | remove ip => exact ih _ (CLInv_remove cl ip h)
    | cleanup now => exact ih _ (CLInv_cleanup cl now h)

/-- Claim C7: `RemoveConnection` on an IP with no live entry leaves the
limiter unchanged; an entry whose count would drop to 0 is deleted; and
along any operation sequence starting from an empty map every entry
present has count at least 1. -/
theorem C7_remove_connection :
    (∀ (cl : Ratelimit.ConnectionLimiter) (ip : String),
      cl.connections ip = none → cl.RemoveConnection ip = cl) ∧
    (∀ (cl : Ratelimit.ConnectionLimiter) (ip : String) (s : Ratelimit.connStats),
      cl.connections ip = some s → s.count ≤ 1 →
      (cl.RemoveConnection ip).connections ip = none) ∧
    (∀ (maxPerIP : Int) (ttl : ℚ) (ops : List Ratelimit.CLOp),
      Ratelimit.CLInv (Ratelimit.runCL ⟨maxPerIP, ttl, GoMap.empty⟩ ops)) := by
  refine ⟨?_, ?_, ?_⟩
  · intro cl ip h
    unfold Ratelimit.ConnectionLimiter.RemoveConnection
    rw [h]
  · intro cl ip s h hc
    unfold Ratelimit.ConnectionLimiter.RemoveConnection
    rw [h]
    simp only
    rw [if_pos (by omega)]
    simp [GoMap.erase]
  · intro maxPerIP ttl ops
    apply CLInv_run
    intro ip s hs
    cases hs

/-- Witness for claim C7: a concrete limiter where removing an untracked
IP is a no-op, removing a count-1 entry deletes it, and a concrete
operation run satisfies the invariant. -/
theorem C7_remove_connection_witness :
    (Ratelimit.ConnectionLimiter.RemoveConnection ⟨10, 60, GoMap.empty⟩ "1.2.3.4" =
      ⟨10, 60, GoMap.empty⟩) ∧
    ((Ratelimit.ConnectionLimiter.RemoveConnection
        ⟨10, 60, GoMap.insert GoMap.empty "1.2.3.4" ⟨1, 0⟩⟩ "1.2.3.4").connections
      "1.2.3.4" = none) ∧
    Ratelimit.CLInv (Ratelimit.runCL ⟨10, 60, GoMap.empty⟩
      [Ratelimit.CLOp.allow "1.2.3.4" 0, Ratelimit.CLOp.remove "1.2.3.4"]) :=
  ⟨C7_remove_connection.1 ⟨10, 60, GoMap.empty⟩ "1.2.3.4" rfl,
    C7_remove_connection.2.1 ⟨10, 60, GoMap.insert GoMap.empty "1.2.3.4" ⟨1, 0⟩⟩ "1.2.3.4"
      ⟨1, 0⟩ (by simp [GoMap.insert]) (by norm_num),
    C7_remove_connection.2.2 10 60
      [Ratelimit.CLOp.allow "1.2.3.4" 0, Ratelimit.CLOp.remove "1.2.3.4"]⟩

namespace Ratelimit

/-- Go struct `bucket` (`pkg/server/ratelimit/rate_limiter.go`): the
per-IP request-rate bucket. -/
structure bucket where
  tokens : Int
  lastReset : ℚ
  blocked : Bool
  attempts : Int
  deriving DecidableEq

/-- Go struct `IPRateLimiter`. -/
structure IPRateLimiter where
  rate : Int
  burst : Int
  ttl : ℚ
  limits : GoMap bucket

/-- `IPRateLimiter.AllowConnection`: a blocked entry is stored back
unchanged and refused; otherwise tokens reset to `burst` once a minute,
a positive balance is decremented (allow), and an empty balance bumps
`attempts`, setting `blocked` once `attempts > burst*2`. -/
def IPRateLimiter.AllowConnection (rl : IPRateLimiter) (ip : String) (now : ℚ) :
    Bool × IPRateLimiter :=
  let b :=
    match rl.limits ip with
    | some b => b
    | none => ⟨rl.burst, now, false, 0⟩
  if b.blocked then (false, { rl with limits := rl.limits.insert ip b })
  else
    let b := if now - b.lastReset > 60 then { b with tokens := rl.burst, lastReset := now } else b
    if b.tokens > 0 then
      (true, { rl with limits := rl.limits.insert ip { b with tokens := b.tokens - 1 } })
    else
      let b := { b with attempts := b.attempts + 1 }
      let b := if b.attempts > rl.burst * 2 then { b with blocked := true } else b
      (false, { rl with limits := rl.limits.insert ip b })

/-- `IPRateLimiter.cleanup`: evicts entries whose `lastReset` is older
than the TTL. -/
def IPRateLimiter.cleanup (rl : IPRateLimiter) (now : ℚ) : IPRateLimiter :=
  { rl with limits := fun q =>
      match rl.limits q with
      | some b => if now - b.lastReset > rl.ttl then none else some b
      | none => none }

/-- The operations that touch the request-rate map. -/
inductive RLOp where
  | allow (ip : String) (now : ℚ)
  | cleanup (now : ℚ)

/-- Run a sequence of request-rate-limiter operations. -/
def runRL (rl : IPRateLimiter) : List RLOp → IPRateLimiter
  | [] => rl
  | RLOp.allow ip now :: rest => runRL (rl.AllowConnection ip now).2 rest
  | RLOp.cleanup now :: rest => runRL (rl.cleanup now) rest

/-- Request-bucket invariant: `blocked` holds exactly when `attempts`
exceeds `2·burst`, and the token balance stays within `[0, burst]`. -/
def RLInv (rl : IPRateLimiter) : Prop :=
  ∀ ip b, rl.limits ip = some b →
    (b.blocked = true ↔ 2 * rl.burst < b.attempts) ∧ 0 ≤ b.tokens ∧ b.tokens ≤ rl.burst

end Ratelimit

/-- Writing one well-formed bucket into a map satisfying the invariant
keeps the invariant. -/
theorem RLInv_insert (rl : Ratelimit.IPRateLimiter) (ip : String) (b' : Ratelimit.bucket)
    (h : Ratelimit.RLInv rl)
    (hcond : (b'.blocked = true ↔ 2 * rl.burst < b'.attempts) ∧
      0 ≤ b'.tokens ∧ b'.tokens ≤ rl.burst) :
    Ratelimit.RLInv ⟨rl.rate, rl.burst, rl.ttl, rl.limits.insert ip b'⟩ := by
  intro ip2 b2 h2
  simp only [GoMap.insert] at h2
  split at h2
  · cases h2; exact hcond
  · exact h ip2 b2 h2

/-- `AllowConnection` does not change the configured burst. -/
theorem allow_burst (rl : Ratelimit.IPRateLimiter) (ip : String) (now : ℚ) :
    (rl.AllowConnection ip now).2.burst = rl.burst := by
  unfold Ratelimit.IPRateLimiter.AllowConnection
  cases hl : rl.limits ip <;> simp only <;> split_ifs <;> rfl

/-- `AllowConnection` preserves the request-bucket invariant. -/
theorem RLInv_allow (rl : Ratelimit.IPRateLimiter) (ip : String) (now : ℚ)
    (hb : 0 ≤ rl.burst) (h : Ratelimit.RLInv rl) :
    Ratelimit.RLInv (rl.AllowConnection ip now).2 := by
  unfold Ratelimit.IPRateLimiter.AllowConnection
  cases hl : rl.limits ip with
  | none =>
    simp only
    split_ifs <;>
      apply RLInv_insert rl ip _ h <;>
      refine ⟨?_, ?_, ?_⟩ <;>
      simp_all <;>
      omega
  | some b =>
    obtain ⟨hc1, hc2, hc3⟩ := h ip b hl
    simp only
    split_ifs <;>
      apply RLInv_insert rl ip _ h <;>
      refine ⟨?_, ?_, ?_⟩ <;>
      simp_all <;>
      omega

/-- `cleanup` preserves the request-bucket invariant. -/
theorem RLInv_cleanup (rl : Ratelimit.IPRateLimiter) (now : ℚ)
    (h : Ratelimit.RLInv rl) : Ratelimit.RLInv (rl.cleanup now) := by
  intro ip b hs
  simp only [Ratelimit.IPRateLimiter.cleanup] at hs
  split at hs
  · rename_i b' heq
    split_ifs at hs
    cases hs
    exact h ip _ heq
  · cases hs

/-- Any operation sequence preserves the request-bucket invariant. -/
theorem RLInv_run (ops : List Ratelimit.RLOp) :
    ∀ rl : Ratelimit.IPRateLimiter, 0 ≤ rl.burst → Ratelimit.RLInv rl →
      Ratelimit.RLInv (Ratelimit.runRL rl ops) := by
  induction ops with
  | nil => intro rl _ h; exact h
  | cons op rest ih =>
    intro rl hb h
    cases op with
    | allow ip now =>
      refine ih _ ?_ (RLInv_allow rl ip now hb h)
      rw [allow_burst]
      exact hb
    | cleanup now => exact ih _ hb (RLInv_cleanup rl now h)

/-- Claim C8: a blocked entry makes every `AllowConnection` call return
false and is stored back entirely unchanged (in particular its token
count), until cleanup evicts it; and along any operation sequence from an
empty map with `burst ≥ 0`, every entry satisfies
`blocked ↔ attempts > 2·burst` and `0 ≤ tokens ≤ burst`. -/
theorem C8_blocked_and_invariant :
    (∀ (rl : Ratelimit.IPRateLimiter) (ip : String) (b : Ratelimit.bucket) (now : ℚ),
      rl.limits ip = some b → b.blocked = true →
      (rl.AllowConnection ip now).1 = false ∧
      (rl.AllowConnection ip now).2.limits ip = some b) ∧
    (∀ (rate burst : Int) (ttl : ℚ) (ops : List Ratelimit.RLOp), 0 ≤ burst →
      Ratelimit.RLInv (Ratelimit.runRL ⟨rate, burst, ttl, GoMap.empty⟩ ops)) := by
  constructor
  · intro rl ip b now hl hbl
    unfold Ratelimit.IPRateLimiter.AllowConnection
    rw [hl]
    simp only
    rw [if_pos hbl]
    exact ⟨rfl, by simp [GoMap.insert]⟩
  · intro rate burst ttl ops hb
    apply RLInv_run ops _ hb
    intro ip b hs
    cases hs

/-- Witness for claim C8: a concretely blocked entry is refused and kept
unchanged, and a concrete operation run from the empty map satisfies the
invariant. -/
theorem C8_blocked_and_invariant_witness :
    ((Ratelimit.IPRateLimiter.AllowConnection
        ⟨60, 10, 3600, GoMap.insert GoMap.empty "9.9.9.9" ⟨0, 0, true, 21⟩⟩ "9.9.9.9" 5).1
      = false ∧
      (Ratelimit.IPRateLimiter.AllowConnection
        ⟨60, 10, 3600, GoMap.insert GoMap.empty "9.9.9.9" ⟨0, 0, true, 21⟩⟩ "9.9.9.9" 5).2.limits
        "9.9.9.9" = some ⟨0, 0, true, 21⟩) ∧
    Ratelimit.RLInv (Ratelimit.runRL ⟨60, 10, 3600, GoMap.empty⟩
      [Ratelimit.RLOp.allow "9.9.9.9" 0, Ratelimit.RLOp.allow "9.9.9.9" 1,
        Ratelimit.RLOp.cleanup 2]) :=
  ⟨C8_blocked_and_invariant.1 ⟨60, 10, 3600, GoMap.insert GoMap.empty "9.9.9.9" ⟨0, 0, true, 21⟩⟩
      "9.9.9.9" ⟨0, 0, true, 21⟩ 5 (by simp [GoMap.insert]) rfl,
    C8_blocked_and_invariant.2 60 10 3600
      [Ratelimit.RLOp.allow "9.9.9.9" 0, Ratelimit.RLOp.allow "9.9.9.9" 1,
        Ratelimit.RLOp.cleanup 2] (by norm_num)⟩


namespace Protection

/-- Go `int64(x)` conversion of a float: truncation toward zero. -/
def goTrunc (q : ℚ) : Int := if 0 ≤ q then Int.floor q else -Int.floor (-q)

/-- Go struct `bucket` (`pkg/server/protection/token_bucket.go`). -/
structure bucket where
  tokens : Int
  lastUpdate : ℚ
  deriving DecidableEq

/-- Go struct `TokenBucket`: the per-IP flood token bucket. -/
structure TokenBucket where
  capacity : Int
  fillRate : ℚ
  tokens : GoMap bucket

/-- `TokenBucket.refillBucket`: adds `int64(elapsed * fillRate)` tokens,
capped at capacity, and advances `lastUpdate` only when at least one
token was added. -/
def TokenBucket.refillBucket (t : TokenBucket) (b : bucket) (now : ℚ) : bucket :=
  let elapsed := now - b.lastUpdate
  let newTokens := goTrunc (elapsed * t.fillRate)
  if newTokens > 0 then ⟨min (b.tokens + newTokens) t.capacity, now⟩ else b

/-- `TokenBucket.Take`: lazily creates a full bucket, refills it, then
decrements and admits when a token is available. -/
def TokenBucket.Take (t : TokenBucket) (ip : String) (now : ℚ) : Bool × TokenBucket :=
  let b :=
    match t.tokens ip with
    | some b => b
    | none => ⟨t.capacity, now⟩
  let b := t.refillBucket b now
  if b.tokens > 0 then
    (true, { t with tokens := t.tokens.insert ip ⟨b.tokens - 1, b.lastUpdate⟩ })
  else
    (false, { t with tokens := t.tokens.insert ip b })

/-- The refill value the spec prescribes for `Take`:
`min(C, tokens + ⌊elapsed·rate⌋)` of the (lazily created) bucket.  Stated
from the claim's words, to be compared against the code's `Take`. -/
def specRefill (t : TokenBucket) (ip : String) (now : ℚ) : Int :=
  let b0 := (t.tokens ip).getD ⟨t.capacity, now⟩
  min t.capacity (b0.tokens + Int.floor ((now - b0.lastUpdate) * t.fillRate))

/-- Flood-bucket invariant at time `now`: every stored bucket has
`0 ≤ tokens ≤ capacity` and was last updated no later than `now`. -/
def TBInv (t : TokenBucket) (now : ℚ) : Prop :=
  ∀ ip b, t.tokens ip = some b → 0 ≤ b.tokens ∧ b.tokens ≤ t.capacity ∧ b.lastUpdate ≤ now

/-- Run a sequence of `Take` calls. -/
def runTakes (t : TokenBucket) : List (String × ℚ) → TokenBucket
  | [] => t
  | (ip, now) :: rest => runTakes (t.Take ip now).2 rest

/-- The call times are nondecreasing, starting from `t0` (the system
clock is monotone). -/
def timesMono : ℚ → List (String × ℚ) → Prop
  | _, [] => True
  | t0, (_, t1) :: rest => t0 ≤ t1 ∧ timesMono t1 rest

/-- The time of the last call (or the start time). -/
def lastTime : ℚ → List (String × ℚ) → ℚ
  | t0, [] => t0
  | _, (_, t1) :: rest => lastTime t1 rest

end Protection


/-- Truncation agrees with the floor on nonnegative rationals. -/
theorem goTrunc_nonneg (q : ℚ) (h : 0 ≤ q) : Protection.goTrunc q = Int.floor q := by
  unfold Protection.goTrunc
  rw [if_pos h]

/-- `Take` written with `Option.getD` in place of the `match`. -/
theorem Take_eq (t : Protection.TokenBucket) (ip : String) (now : ℚ) :
    t.Take ip now =
      (let b0 := (t.tokens ip).getD ⟨t.capacity, now⟩
       let b1 := t.refillBucket b0 now
       if b1.tokens > 0 then
         (true, { t with tokens := t.tokens.insert ip ⟨b1.tokens - 1, b1.lastUpdate⟩ })
       else
         (false, { t with tokens := t.tokens.insert ip b1 })) := by
  unfold Protection.TokenBucket.Take
  cases hl : t.tokens ip <;> simp [hl]

/-- Under a monotone clock and nonnegative rate, the refilled bucket
holds exactly the spec value `min(C, tokens + ⌊elapsed·rate⌋)`. -/
theorem refillBucket_cases (t : Protection.TokenBucket) (b : Protection.bucket) (now : ℚ)
    (h : 0 ≤ (now - b.lastUpdate) * t.fillRate) (hbc : b.tokens ≤ t.capacity) :
    t.refillBucket b now =
      ⟨min t.capacity (b.tokens + Int.floor ((now - b.lastUpdate) * t.fillRate)),
       if 0 < Int.floor ((now - b.lastUpdate) * t.fillRate) then now else b.lastUpdate⟩ := by
  obtain ⟨tok, lu⟩ := b
  simp only at h hbc
  unfold Protection.TokenBucket.refillBucket
  simp only [goTrunc_nonneg _ h]
  by_cases hpos : 0 < Int.floor ((now - lu) * t.fillRate)
  · rw [if_pos hpos, if_pos hpos]
    rw [min_comm]
  · rw [if_neg hpos, if_neg hpos]
    have h0 : Int.floor ((now - lu) * t.fillRate) = 0 := by
      have := Int.floor_nonneg.mpr h
      omega
    rw [h0]
    have : min t.capacity (tok + 0) = tok := by omega
    rw [this]

/-- One `Take` call: the result equals the availability of the
spec-refilled balance, exactly one token is consumed on success, and the
invariant is preserved. -/
theorem Take_spec (t : Protection.TokenBucket) (ip : String) (now : ℚ)
    (hc : 0 ≤ t.capacity) (hr : 0 ≤ t.fillRate) (hInv : Protection.TBInv t now) :
    ((t.Take ip now).1 = decide (0 < Protection.specRefill t ip now)) ∧
    (∃ lu : ℚ, (t.Take ip now).2.tokens ip =
      some ⟨if 0 < Protection.specRefill t ip now then Protection.specRefill t ip now - 1
        else Protection.specRefill t ip now, lu⟩) ∧
    Protection.TBInv (t.Take ip now).2 now := by
  have hb0 : 0 ≤ ((t.tokens ip).getD ⟨t.capacity, now⟩).tokens := by
    cases hl : t.tokens ip with
    | none => simpa using hc
    | some b => simpa using (hInv ip b hl).1
  have hbc : ((t.tokens ip).getD ⟨t.capacity, now⟩).tokens ≤ t.capacity := by
    cases hl : t.tokens ip with
    | none => simp
    | some b => simpa using (hInv ip b hl).2.1
  have hbl : ((t.tokens ip).getD ⟨t.capacity, now⟩).lastUpdate ≤ now := by
    cases hl : t.tokens ip with
    | none => simp
    | some b => simpa using (hInv ip b hl).2.2
  have helapsed : 0 ≤ (now - ((t.tokens ip).getD ⟨t.capacity, now⟩).lastUpdate) * t.fillRate :=
    mul_nonneg (by linarith) hr
  have hfl : 0 ≤ Int.floor ((now - ((t.tokens ip).getD ⟨t.capacity, now⟩).lastUpdate) * t.fillRate) :=
    Int.floor_nonneg.mpr helapsed
  have hspec : Protection.specRefill t ip now =
      min t.capacity (((t.tokens ip).getD ⟨t.capacity, now⟩).tokens +
        Int.floor ((now - ((t.tokens ip).getD ⟨t.capacity, now⟩).lastUpdate) * t.fillRate)) := rfl
  have hsr0 : 0 ≤ Protection.specRefill t ip now := by
    rw [hspec]
    have : 0 ≤ min t.capacity (((t.tokens ip).getD ⟨t.capacity, now⟩).tokens +
        Int.floor ((now - ((t.tokens ip).getD ⟨t.capacity, now⟩).lastUpdate) * t.fillRate)) := by
      omega
    exact this
  have hsrc : Protection.specRefill t ip now ≤ t.capacity := by
    rw [hspec]
    omega
  rw [Take_eq]
  simp only [refillBucket_cases t _ now helapsed hbc, ← hspec]
  by_cases hpos : 0 < Protection.specRefill t ip now
  · rw [if_pos hpos]
    refine ⟨by simp [hpos],
      ⟨(if 0 < Int.floor ((now - ((t.tokens ip).getD ⟨t.capacity, now⟩).lastUpdate) *
          t.fillRate) then now else ((t.tokens ip).getD ⟨t.capacity, now⟩).lastUpdate),
        by simp [GoMap.insert, if_pos hpos]⟩, ?_⟩
    intro ip2 b2 h2
    simp only [GoMap.insert] at h2
    split at h2
    · cases h2
      refine ⟨by simp; omega, by simp; omega, ?_⟩
      show (if 0 < Int.floor ((now - ((t.tokens ip).getD ⟨t.capacity, now⟩).lastUpdate) *
          t.fillRate) then now else ((t.tokens ip).getD ⟨t.capacity, now⟩).lastUpdate) ≤ now
      split_ifs
      · exact le_refl now
      · exact hbl
    · exact hInv ip2 b2 h2
  · rw [if_neg hpos]
    refine ⟨by simp [hpos],
      ⟨(if 0 < Int.floor ((now - ((t.tokens ip).getD ⟨t.capacity, now⟩).lastUpdate) *
          t.fillRate) then now else ((t.tokens ip).getD ⟨t.capacity, now⟩).lastUpdate),
        by simp [GoMap.insert, if_neg hpos]⟩, ?_⟩
    intro ip2 b2 h2
    simp only [GoMap.insert] at h2
    split at h2
    · cases h2
      refine ⟨by simp; omega, by simp; omega, ?_⟩
      show (if 0 < Int.floor ((now - ((t.tokens ip).getD ⟨t.capacity, now⟩).lastUpdate) *
          t.fillRate) then now else ((t.tokens ip).getD ⟨t.capacity, now⟩).lastUpdate) ≤ now
      split_ifs
      · exact le_refl now
      · exact hbl
    · exact hInv ip2 b2 h2

/-- The invariant is monotone in the time bound. -/
theorem TBInv_mono (t : Protection.TokenBucket) (t1 t2 : ℚ) (h12 : t1 ≤ t2)
    (h : Protection.TBInv t t1) : Protection.TBInv t t2 := by
  intro ip b hb
  obtain ⟨h1, h2, h3⟩ := h ip b hb
  exact ⟨h1, h2, le_trans h3 h12⟩

/-- `Take` does not change the configured capacity. -/
theorem Take_capacity (t : Protection.TokenBucket) (ip : String) (now : ℚ) :
    (t.Take ip now).2.capacity = t.capacity := by
  rw [Take_eq]
  simp only
  split_ifs <;> rfl

/-- `Take` does not change the configured fill rate. -/
theorem Take_fillRate (t : Protection.TokenBucket) (ip : String) (now : ℚ) :
    (t.Take ip now).2.fillRate = t.fillRate := by
  rw [Take_eq]
  simp only
  split_ifs <;> rfl

/-- Any monotone-time `Take` sequence preserves the invariant. -/
theorem TBInv_run (events : List (String × ℚ)) :
    ∀ (t : Protection.TokenBucket) (t0 : ℚ), 0 ≤ t.capacity → 0 ≤ t.fillRate →
      Protection.TBInv t t0 → Protection.timesMono t0 events →
      Protection.TBInv (Protection.runTakes t events) (Protection.lastTime t0 events) := by
  induction events with
  | nil => intro t t0 _ _ h _; exact h
  | cons e rest ih =>
    obtain ⟨ip, t1⟩ := e
    intro t t0 hc hr h hm
    obtain ⟨h01, hm'⟩ := hm
    refine ih (t.Take ip t1).2 t1 ?_ ?_ ?_ hm'
    · rw [Take_capacity]; exact hc
    · rw [Take_fillRate]; exact hr
    · exact (Take_spec t ip t1 hc hr (TBInv_mono t t0 t1 h01 h)).2.2

/-- Claim C6: `Take(ip)` lazily creates a bucket holding `capacity`
tokens on first observation (the spec refill of an untracked IP is
exactly the capacity), refills to `min(C, tokens + ⌊elapsed·rate⌋)`
before deciding, returns true and decrements exactly one token when the
refilled balance is positive and false otherwise; and along any
monotone-time call sequence from an empty map (with `capacity ≥ 0`,
`rate ≥ 0`) every bucket satisfies `0 ≤ tokens ≤ capacity`. -/
theorem C6_flood_token_bucket :
    (∀ (t : Protection.TokenBucket) (ip : String) (now : ℚ), t.tokens ip = none →
      Protection.specRefill t ip now = t.capacity) ∧
    (∀ (t : Protection.TokenBucket) (ip : String) (now : ℚ),
      0 ≤ t.capacity → 0 ≤ t.fillRate → Protection.TBInv t now →
      ((t.Take ip now).1 = decide (0 < Protection.specRefill t ip now)) ∧
      (∃ lu : ℚ, (t.Take ip now).2.tokens ip =
        some ⟨if 0 < Protection.specRefill t ip now then Protection.specRefill t ip now - 1
          else Protection.specRefill t ip now, lu⟩) ∧
      Protection.TBInv (t.Take ip now).2 now) ∧
    (∀ (capacity : Int) (fillRate : ℚ) (t0 : ℚ) (events : List (String × ℚ)),
      0 ≤ capacity → 0 ≤ fillRate → Protection.timesMono t0 events →
      Protection.TBInv (Protection.runTakes ⟨capacity, fillRate, GoMap.empty⟩ events)
        (Protection.lastTime t0 events)) := by
  refine ⟨?_, ?_, ?_⟩
  · intro t ip now h
    simp [Protection.specRefill, h]
  · intro t ip now hc hr hInv
    exact Take_spec t ip now hc hr hInv
  · intro capacity fillRate t0 events hc hr hm
    exact TBInv_run events _ t0 hc hr (fun ip b h => nomatch h) hm

/-- Witness for claim C6: a concrete untracked IP is created at full
capacity, and a concrete two-call monotone run satisfies the invariant. -/
theorem C6_flood_token_bucket_witness :
    Protection.specRefill ⟨5, 1, GoMap.empty⟩ "w" 3 = 5 ∧
    Protection.TBInv
      (Protection.runTakes ⟨5, 1, GoMap.empty⟩ [("w", 1), ("w", 2)])
      (Protection.lastTime 0 [("w", 1), ("w", 2)]) :=
  ⟨C6_flood_token_bucket.1 ⟨5, 1, GoMap.empty⟩ "w" 3 rfl,
    C6_flood_token_bucket.2.2 5 1 0 [("w", 1), ("w", 2)] (by norm_num) (by norm_num)
      ⟨by norm_num, by norm_num, trivial⟩⟩

namespace Protection

/-- Go struct `attemptInfo` (`pkg/server/protection/ip_filter.go`); the
zero value models Go's zero `time.Time`. -/
structure attemptInfo where
  count : Int
  lastFail : ℚ
  blockedAt : ℚ
  deriving DecidableEq

/-- Go struct `FailedAttempts`. -/
structure FailedAttempts where
  maxAttempts : Int
  blockTime : ℚ
  attempts : GoMap attemptInfo

/-- `FailedAttempts.RegisterFailure`: increments the count, updates
`lastFail`, and stamps `blockedAt := now` whenever the updated count has
reached `maxAttempts` — on every such failure, not only the first. -/
def FailedAttempts.RegisterFailure (f : FailedAttempts) (ip : String) (now : ℚ) :
    FailedAttempts :=
  let info :=
    match f.attempts ip with
    | some i => i
    | none => ⟨0, 0, 0⟩
  let info := { info with count := info.count + 1, lastFail := now }
  let info := if info.count ≥ f.maxAttempts then { info with blockedAt := now } else info
  { f with attempts := f.attempts.insert ip info }

/-- `FailedAttempts.IsBlocked`: true while the count is at the limit and
the block window has not elapsed; entries whose last failure is older
than the block time are deleted lazily. -/
def FailedAttempts.IsBlocked (f : FailedAttempts) (ip : String) (now : ℚ) :
    Bool × FailedAttempts :=
  match f.attempts ip with
  | none => (false, f)
  | some info =>
    if info.count ≥ f.maxAttempts ∧ now - info.blockedAt < f.blockTime then (true, f)
    else if now - info.lastFail > f.blockTime then
      (false, { f with attempts := f.attempts.erase ip })
    else (false, f)

end Protection

/-- Counterexample to claim C9: with `maxAttempts = 1` and
`blockTime = 10`, a failure at time 0 stamps `blockedAt = 0`; a second
failure at time 5 re-stamps `blockedAt = 5` even though the count first
reached the limit at time 0 — the claim says `blocked_at` is recorded
only when the count *first* reaches the limit, which would leave it at 0
and make `IsBlocked` at time 12 false, while the code returns true. -/
theorem C9_register_failure_counterexample :
    ((((⟨1, 10, GoMap.empty⟩ : Protection.FailedAttempts).RegisterFailure
        "8.8.8.8" 0).attempts "8.8.8.8") = some ⟨1, 0, 0⟩) ∧
    (((((⟨1, 10, GoMap.empty⟩ : Protection.FailedAttempts).RegisterFailure
        "8.8.8.8" 0).RegisterFailure "8.8.8.8" 5).attempts "8.8.8.8") = some ⟨2, 5, 5⟩) ∧
    ((5 : ℚ) ≠ 0) ∧
    (((((⟨1, 10, GoMap.empty⟩ : Protection.FailedAttempts).RegisterFailure
        "8.8.8.8" 0).RegisterFailure "8.8.8.8" 5).IsBlocked "8.8.8.8" 12).1 = true) ∧
    ¬ ((12 : ℚ) - 0 < 10) := by
  refine ⟨?_, ?_, by norm_num, ?_, by norm_num⟩
  · simp [Protection.FailedAttempts.RegisterFailure, GoMap.insert, GoMap.empty]
  · simp [Protection.FailedAttempts.RegisterFailure, GoMap.insert, GoMap.empty]
    try norm_num
  · simp [Protection.FailedAttempts.RegisterFailure, Protection.FailedAttempts.IsBlocked,
      GoMap.insert, GoMap.empty]
    try norm_num

/-- Claim C9 (amended): `RegisterFailure` increments the count, updates
`last_fail`, and records `blocked_at = now` whenever the updated count is
at least `max_failed_attempts` (each such failure refreshes it, not only
the first); `IsBlocked` returns true exactly when a tracked entry has
`count ≥ max_failed_attempts` and `now − blocked_at < block_time`. -/
theorem C9_register_failure_amended :
    (∀ (f : Protection.FailedAttempts) (ip : String) (now : ℚ),
      (f.RegisterFailure ip now).attempts ip =
        some ⟨((f.attempts ip).getD ⟨0, 0, 0⟩).count + 1, now,
          if ((f.attempts ip).getD ⟨0, 0, 0⟩).count + 1 ≥ f.maxAttempts then now
          else ((f.attempts ip).getD ⟨0, 0, 0⟩).blockedAt⟩) ∧
    (∀ (f : Protection.FailedAttempts) (ip : String) (now : ℚ),
      ((f.IsBlocked ip now).1 = true ↔
        ∃ i : Protection.attemptInfo, f.attempts ip = some i ∧
          i.count ≥ f.maxAttempts ∧ now - i.blockedAt < f.blockTime)) := by
  constructor
  · intro f ip now
    cases hl : f.attempts ip with
    | none =>
      simp only [Protection.FailedAttempts.RegisterFailure, hl, Option.getD_none, GoMap.insert]
      split_ifs <;> simp
    | some i =>
      simp only [Protection.FailedAttempts.RegisterFailure, hl, Option.getD_some, GoMap.insert]
      split_ifs <;> simp
  · intro f ip now
    cases hl : f.attempts ip with
    | none => simp [Protection.FailedAttempts.IsBlocked, hl]
    | some i =>
      simp only [Protection.FailedAttempts.IsBlocked, hl, Option.some.injEq]
      split_ifs with h1 h2
      · simp only [true_iff]
        exact ⟨i, rfl, h1.1, h1.2⟩
      · constructor
        · intro hfalse
          cases hfalse
        · rintro ⟨i', rfl, hc, hb⟩
          exact absurd ⟨hc, hb⟩ h1
      · constructor
        · intro hfalse
          cases hfalse
        · rintro ⟨i', rfl, hc, hb⟩
          exact absurd ⟨hc, hb⟩ h1

namespace WGServer

/-- Default `POW_MAX_DIFFICULTY` from `pkg/config/config.go`.  The server
never reads this value: `adjustDifficulty` publishes without clamping. -/
def defaultMaxDifficulty : Nat := 8

/-- One tick of `Server.adjustDifficulty` (`pkg/server/server.go`): Go
integer arithmetic `MaxConnections*8/10` and `MaxConnections*5/10`
thresholds, and `InitialDifficulty` as the base.  No clamping occurs. -/
def adjustTick (maxConnections initialDifficulty c : Nat) : Nat :=
  if c > maxConnections * 8 / 10 then initialDifficulty + 2
  else if c > maxConnections * 5 / 10 then initialDifficulty + 1
  else initialDifficulty

/-- A protocol frame actually written to the socket. -/
inductive Frame where
  | challenge
  | quote
  | errorFrame (code : String)
  deriving DecidableEq

/-- A socket error; `isClosed` models `errors.Is(err, net.ErrClosed)`. -/
structure NetErr where
  isClosed : Bool
  deriving DecidableEq

/-- The I/O outcomes a single connection can observe, supplied as an
oracle: deadline setting, challenge creation, the challenge write, the
solution read, and the error/quote writes. -/
structure ConnOracle where
  deadlineErr : Option NetErr
  challengeRes : Option Pow.Challenge
  sendChallengeErr : Option NetErr
  solutionRes : Except NetErr Protocol.SolutionPayload
  sendErrorErr : Option NetErr
  sendQuoteErr : Option NetErr

/-- `Server.handleConnection` (`pkg/server/server.go`): returns the
frames successfully written and the handler's returned error.  On a
failed verification it returns `sendError(INVALID_SOLUTION)`'s result —
`nil` when the error frame was written successfully. -/
def handleConnection (powSt : Pow.PowService) (now : ℚ) (o : ConnOracle) :
    List Frame × Option NetErr :=
  match o.deadlineErr with
  | some e => ([], some e)
  | none =>
    match o.challengeRes with
    | none =>
      match o.sendErrorErr with
      | none => ([Frame.errorFrame "INTERNAL_ERROR"], none)
      | some e => ([], some e)
    | some ch =>
      match o.sendChallengeErr with
      | some e => ([], some e)
      | none =>
        match o.solutionRes with
        | Except.error e => ([Frame.challenge], some e)
        | Except.ok sol =>
          if Pow.VerifySolution powSt ch sol now then
            match o.sendQuoteErr with
            | none => ([Frame.challenge, Frame.quote], none)
            | some e => ([Frame.challenge], some e)
          else
            match o.sendErrorErr with
            | none => ([Frame.challenge, Frame.errorFrame "INVALID_SOLUTION"], none)
            | some e => ([Frame.challenge], some e)

/-- The goroutine epilogue in `Server.Run`: `RegisterFailure` is called
only when the handler returned a non-nil error that is not
`net.ErrClosed`. -/
def afterConnection (fa : Protection.FailedAttempts) (ip : String) (now : ℚ)
    (res : Option NetErr) : Protection.FailedAttempts :=
  match res with
  | none => fa
  | some e => if e.isClosed then fa else fa.RegisterFailure ip now

/-- `FailedAttempts.GetFailureCount` (`pkg/server/protection/ip_filter.go`). -/
def GetFailureCount (fa : Protection.FailedAttempts) (ip : String) : Int :=
  match fa.attempts ip with
  | some i => i.count
  | none => 0

end WGServer

/-- `RegisterFailure` increments the queried failure count by one. -/
theorem GetFailureCount_register (fa : Protection.FailedAttempts) (ip : String) (now : ℚ) :
    WGServer.GetFailureCount (fa.RegisterFailure ip now) ip =
      WGServer.GetFailureCount fa ip + 1 := by
  unfold WGServer.GetFailureCount Protection.FailedAttempts.RegisterFailure
  cases hl : fa.attempts ip with
  | none => simp [hl, GoMap.insert]; split_ifs <;> simp
  | some i => simp [hl, GoMap.insert]; split_ifs <;> simp

/-- Counterexample to claim C2: the published difficulty is never
clamped.  With `MaxConnections = 10`, `InitialDifficulty = 7` and 10
live connections, the tick publishes `9`, which exceeds the configured
default `MaxDifficulty = 8`. -/
theorem C2_adjust_difficulty_counterexample :
    WGServer.adjustTick 10 7 10 = 9 ∧ WGServer.defaultMaxDifficulty = 8 ∧
      ¬ WGServer.adjustTick 10 7 10 ≤ WGServer.defaultMaxDifficulty := by
  refine ⟨by decide, rfl, by decide⟩

/-- Claim C2 (amended): each tick publishes exactly `base + 2` when
`c > 0.8·MaxConnections`, `base + 1` when `c > 0.5·MaxConnections`, and
`base` otherwise (the integer-division thresholds agree with the
rational comparisons); no clamping to `MaxDifficulty` is applied. -/
theorem C2_adjust_difficulty_amended :
    ∀ maxConnections base c : Nat,
      WGServer.adjustTick maxConnections base c =
        (if 10 * c > 8 * maxConnections then base + 2
         else if 10 * c > 5 * maxConnections then base + 1
         else base) := by
  intro M base c
  unfold WGServer.adjustTick
  have h8 : c > M * 8 / 10 ↔ 10 * c > 8 * M := by omega
  have h5 : c > M * 5 / 10 ↔ 10 * c > 5 * M := by omega
  by_cases hc8 : 10 * c > 8 * M
  · rw [if_pos (h8.mpr hc8), if_pos hc8]
  · rw [if_neg (fun hh => hc8 (h8.mp hh)), if_neg hc8]
    by_cases hc5 : 10 * c > 5 * M
    · rw [if_pos (h5.mpr hc5), if_pos hc5]
    · rw [if_neg (fun hh => hc5 (h5.mp hh)), if_neg hc5]

/-- Counterexample to claim C1: a connection whose solution fails
verification, with every socket write succeeding.  The server does send
the framed `INVALID_SOLUTION` error, but the handler then returns `nil`,
so `RegisterFailure` is never called: the failed-attempt counter stays
at 0 instead of increasing by exactly 1. -/
theorem C1_invalid_solution_counterexample :
    (WGServer.handleConnection ⟨60, GoMap.empty⟩ 0
        ⟨none, some ⟨"pp", 1, "nn", 100⟩, none, Except.ok ⟨"pp", "s", "zz"⟩, none, none⟩).1 =
      [WGServer.Frame.challenge, WGServer.Frame.errorFrame "INVALID_SOLUTION"] ∧
    (WGServer.handleConnection ⟨60, GoMap.empty⟩ 0
        ⟨none, some ⟨"pp", 1, "nn", 100⟩, none, Except.ok ⟨"pp", "s", "zz"⟩, none, none⟩).2 =
      none ∧
    WGServer.GetFailureCount
      (WGServer.afterConnection ⟨5, 900, GoMap.empty⟩ "1.2.3.4" 0
        (WGServer.handleConnection ⟨60, GoMap.empty⟩ 0
          ⟨none, some ⟨"pp", 1, "nn", 100⟩, none, Except.ok ⟨"pp", "s", "zz"⟩, none, none⟩).2)
      "1.2.3.4" = 0 ∧
    ¬ (WGServer.GetFailureCount
        (WGServer.afterConnection ⟨5, 900, GoMap.empty⟩ "1.2.3.4" 0
          (WGServer.handleConnection ⟨60, GoMap.empty⟩ 0
            ⟨none, some ⟨"pp", 1, "nn", 100⟩, none, Except.ok ⟨"pp", "s", "zz"⟩, none,
              none⟩).2)
        "1.2.3.4" =
      WGServer.GetFailureCount (⟨5, 900, GoMap.empty⟩ : Protection.FailedAttempts)
        "1.2.3.4" + 1) :=
  ⟨rfl, rfl, rfl, by decide⟩

/-- Claim C1 (amended): on a connection that reaches verification and
fails it, the handler sends the framed `INVALID_SOLUTION` error when the
write succeeds — in which case it returns `nil` and the failed-attempt
counter is unchanged; when the write itself fails, no error frame is
delivered and the counter increases by exactly 1 unless the write error
is a closed-connection error. -/
theorem C1_invalid_solution_amended :
    ∀ (powSt : Pow.PowService) (now : ℚ) (o : WGServer.ConnOracle) (ch : Pow.Challenge)
      (sol : Protocol.SolutionPayload) (fa : Protection.FailedAttempts) (ip : String)
      (tfa : ℚ),
      o.deadlineErr = none → o.challengeRes = some ch → o.sendChallengeErr = none →
      o.solutionRes = Except.ok sol → Pow.VerifySolution powSt ch sol now = false →
      ((o.sendErrorErr = none →
        (WGServer.handleConnection powSt now o).1 =
          [WGServer.Frame.challenge, WGServer.Frame.errorFrame "INVALID_SOLUTION"] ∧
        (WGServer.handleConnection powSt now o).2 = none ∧
        WGServer.afterConnection fa ip tfa (WGServer.handleConnection powSt now o).2 = fa) ∧
      (∀ e : WGServer.NetErr, o.sendErrorErr = some e →
        (WGServer.handleConnection powSt now o).1 = [WGServer.Frame.challenge] ∧
        (WGServer.handleConnection powSt now o).2 = some e ∧
        (e.isClosed = false →
          WGServer.GetFailureCount
            (WGServer.afterConnection fa ip tfa (WGServer.handleConnection powSt now o).2)
            ip = WGServer.GetFailureCount fa ip + 1) ∧
        (e.isClosed = true →
          WGServer.afterConnection fa ip tfa (WGServer.handleConnection powSt now o).2 =
            fa))) := by
  intro powSt now o ch sol fa ip tfa hd hch hsc hsol hv
  obtain ⟨d, cr, sc, sr, se, sq⟩ := o
  simp only at hd hch hsc hsol
  subst hd hch hsc hsol
  constructor
  · intro hse
    simp only at hse
    subst hse
    simp [WGServer.handleConnection, hv, WGServer.afterConnection]
  · intro e hse
    simp only at hse
    subst hse
    refine ⟨?_, ?_, ?_, ?_⟩
    · simp [WGServer.handleConnection, hv]
    · simp [WGServer.handleConnection, hv]
    · intro hcl
      simp [WGServer.handleConnection, hv, WGServer.afterConnection, hcl,
        GetFailureCount_register]
    · intro hcl
      simp [WGServer.handleConnection, hv, WGServer.afterConnection, hcl]

/-- Witness for amended claim C1: the concrete failed-verification
connection with a successful error write, and one with a failing
non-closed error write whose counter rises by exactly 1. -/
theorem C1_invalid_solution_witness :
    ((WGServer.handleConnection ⟨60, GoMap.empty⟩ 0
        ⟨none, some ⟨"pp", 1, "nn", 100⟩, none, Except.ok ⟨"pp", "s", "zz"⟩, none, none⟩).1 =
      [WGServer.Frame.challenge, WGServer.Frame.errorFrame "INVALID_SOLUTION"] ∧
      (WGServer.handleConnection ⟨60, GoMap.empty⟩ 0
        ⟨none, some ⟨"pp", 1, "nn", 100⟩, none, Except.ok ⟨"pp", "s", "zz"⟩, none, none⟩).2 =
        none ∧
      WGServer.afterConnection ⟨5, 900, GoMap.empty⟩ "1.2.3.4" 0
          (WGServer.handleConnection ⟨60, GoMap.empty⟩ 0
            ⟨none, some ⟨"pp", 1, "nn", 100⟩, none, Except.ok ⟨"pp", "s", "zz"⟩, none,
              none⟩).2 =
        ⟨5, 900, GoMap.empty⟩) ∧
    (WGServer.GetFailureCount
      (WGServer.afterConnection ⟨5, 900, GoMap.empty⟩ "1.2.3.4" 0
        (WGServer.handleConnection ⟨60, GoMap.empty⟩ 0
          ⟨none, some ⟨"pp", 1, "nn", 100⟩, none, Except.ok ⟨"pp", "s", "zz"⟩,
            some ⟨false⟩, none⟩).2)
      "1.2.3.4" = WGServer.GetFailureCount (⟨5, 900, GoMap.empty⟩ : Protection.FailedAttempts)
        "1.2.3.4" + 1) :=
  ⟨(C1_invalid_solution_amended ⟨60, GoMap.empty⟩ 0
      ⟨none, some ⟨"pp", 1, "nn", 100⟩, none, Except.ok ⟨"pp", "s", "zz"⟩, none, none⟩
      ⟨"pp", 1, "nn", 100⟩ ⟨"pp", "s", "zz"⟩ ⟨5, 900, GoMap.empty⟩ "1.2.3.4" 0
      rfl rfl rfl rfl rfl).1 rfl,
    ((C1_invalid_solution_amended ⟨60, GoMap.empty⟩ 0
      ⟨none, some ⟨"pp", 1, "nn", 100⟩, none, Except.ok ⟨"pp", "s", "zz"⟩, some ⟨false⟩, none⟩
      ⟨"pp", 1, "nn", 100⟩ ⟨"pp", "s", "zz"⟩ ⟨5, 900, GoMap.empty⟩ "1.2.3.4" 0
      rfl rfl rfl rfl rfl).2 ⟨false⟩ rfl).2.2.1 rfl⟩
